import Mathlib

set_option linter.unusedVariables false

/-!
Verification development for the MQTT client connection core
(`src/MQTTProtocolOut.c`): address/port parsing, the non-blocking
connect sequence, subscribe/unsubscribe issuance and the ack handlers.

Strings are modelled as `List Char` (no terminating NUL; `strlen` is
`List.length`).  Machine integers are modelled as `Int`.  External
collaborators (`Socket_new`, `SSLSocket_setSocketForSSL`,
`SSLSocket_connect`, `MQTTPacket_send_connect`, ...) are oracles: their
return codes are fields of an environment record, and each call the
connect sequence makes is recorded in an explicit step trace.
-/

/-- Modelled from the spec: the fixed protocol-default port
(`DEFAULT_PORT` in `MQTTProtocolOut.h`, which is not part of the given
sources). -/
def DEFAULT_PORT : Int := 1883

/-- Modelled from the spec: the POSIX "connect in progress" errno
(platform header, not part of the given sources). -/
def EINPROGRESS : Int := 115

/-- Modelled from the spec: the POSIX "operation would block" errno
(platform header, not part of the given sources). -/
def EWOULDBLOCK : Int := 11

/-- Modelled from the spec: the generic socket failure status
(`SOCKET_ERROR` in `Socket.h`, which is not part of the given
sources). -/
def SOCKET_ERROR : Int := -1

/-- Modelled from the spec: the uniform "processing complete" status
(`TCPSOCKET_COMPLETE` in `Socket.h`, which is not part of the given
sources). -/
def TCPSOCKET_COMPLETE : Int := 0

/-- Modelled from the spec: the "TLS handshake needs more I/O" status
(`TCPSOCKET_INTERRUPTED` in `Socket.h`, which is not part of the given
sources). -/
def TCPSOCKET_INTERRUPTED : Int := -22

/-- Index of the last occurrence of `c` in `s`, the embedding of
`strrchr(uri, c)`: `none` stands for a NULL result, `some i` for the
pointer `uri + i`. -/
def strrchrIdx : List Char → Char → Option Nat
  | [], _ => none
  | a :: rest, c =>
    match strrchrIdx rest c with
    | some i => some (i + 1)
    | none => if a = c then some 0 else none

/-- Character class of C `isspace`, used by `atoi`. -/
def isSpaceC (c : Char) : Bool :=
  c == ' ' || c == '\t' || c == '\n' || c == Char.ofNat 11 || c == Char.ofNat 12 || c == '\r'

/-- Leading-whitespace skipping phase of C `atoi`. -/
def atoiSkip : List Char → List Char
  | [] => []
  | c :: rest => if isSpaceC c then atoiSkip rest else c :: rest

/-- Digit-accumulation phase of C `atoi`: consume decimal digits from
the front, stopping at the first non-digit. -/
def atoiDigits : List Char → Int → Int
  | [], acc => acc
  | c :: rest, acc =>
    if c.isDigit then atoiDigits rest (acc * 10 + ((c.toNat : Int) - 48)) else acc

/-- Embedding of C `atoi`: skip whitespace, take an optional sign, then
accumulate decimal digits; a string with no leading digits yields 0. -/
def atoi (s : List Char) : Int :=
  if (atoiSkip s).head? = some '-' then - atoiDigits (atoiSkip s).tail 0
  else if (atoiSkip s).head? = some '+' then atoiDigits (atoiSkip s).tail 0
  else atoiDigits (atoiSkip s) 0

/-- The port-separator position `MQTTProtocol_addressPort` settles on
(the value of `colon_pos` after the IPv6 adjustment).  The reverse
search allows colons inside IPv6 literals; when the input starts with
`'['`, a candidate colon lying before the last `']'` is discarded
(`colon_pos < strrchr(uri, ']')` is a pointer comparison in which a
NULL `strrchr` result, position 0, is below every in-string
position). -/
def portSepIdx (uri : List Char) : Option Nat :=
  if uri.head? = some '[' then
    match strrchrIdx uri ':', strrchrIdx uri ']' with
    | some i, some j => if i < j then none else some i
    | cp, _ => cp
  else strrchrIdx uri ':'

/-- Result of `MQTTProtocol_addressPort`.  `fresh` records whether the
returned host buffer is a new allocation (`buf != uri` in the C code);
when `fresh` is false the C function returned the input pointer
itself. -/
structure AddrResult where
  host : List Char
  port : Int
  fresh : Bool
deriving DecidableEq, Repr

/-- Embedding of `MQTTProtocol_addressPort` (`MQTTProtocolOut.c` lines
50-86).  If a port separator was found, the host is the prefix before
it (`MQTTStrncpy(buf, uri, addr_len+1)` copies `addr_len` characters)
and the port is `atoi` of the suffix; otherwise the port is
`DEFAULT_PORT`.  If the host still ends in `']'`, that final bracket is
stripped (in place on an already-fresh buffer, otherwise by allocating
a copy one character shorter).  The C read `buf[len - 1]` on an empty
`buf` is out of bounds; the model treats an empty host as not ending in
`']'`. -/
def MQTTProtocol_addressPort (uri : List Char) : AddrResult :=
  match portSepIdx uri with
  | some i =>
    if (uri.take i).getLast? = some ']' then
      ⟨(uri.take i).dropLast, atoi (uri.drop (i + 1)), true⟩
    else ⟨uri.take i, atoi (uri.drop (i + 1)), true⟩
  | none =>
    if uri.getLast? = some ']' then ⟨uri.dropLast, DEFAULT_PORT, true⟩
    else ⟨uri, DEFAULT_PORT, false⟩

example : MQTTProtocol_addressPort "example.com".data =
    ⟨"example.com".data, DEFAULT_PORT, false⟩ := by decide

example : MQTTProtocol_addressPort "example.com:1883".data =
    ⟨"example.com".data, 1883, true⟩ := by decide

example : MQTTProtocol_addressPort "[::1]:1883".data =
    ⟨"[::1".data, 1883, true⟩ := by decide

example : MQTTProtocol_addressPort "[::1]".data =
    ⟨"[::1".data, DEFAULT_PORT, true⟩ := by decide

example : MQTTProtocol_addressPort "host:abc".data =
    ⟨"host".data, 0, true⟩ := by decide

/-- Session record (`Clients` in `Clients.h`, fields as used by this
core): handshake phase `connect_state`, health flag `good`, keep-alive
flag `ping_outstanding`, transport context `socket` / `ssl` (handles,
modelled as opaque integers) and the TLS options handle `sslopts`. -/
structure Clients where
  clientID : List Char
  connect_state : Int
  good : Int
  ping_outstanding : Int
  socket : Int
  ssl : Int
  sslopts : Int
deriving DecidableEq, Repr

/-- Oracle return values of the external collaborators called by
`MQTTProtocol_connect`: `Socket_new` (its status and the socket handle
it stores through its out parameter), `SSLSocket_setSocketForSSL` (its
status and the TLS context it installs in `net.ssl`),
`SSLSocket_connect`, and `MQTTPacket_send_connect`. -/
structure ConnEnv where
  socketNewRc : Int
  socketNewSock : Int
  sslSetRc : Int
  sslCtx : Int
  sslConnectRc : Int
  sendConnectRc : Int
deriving DecidableEq, Repr

/-- One external call made by the connect sequence, with the status it
returned; the trace of these steps records which handshake stages an
invocation actually went through, in order. -/
inductive ConnStep where
  | tcpConnect (rc : Int)
  | tlsSetup (rc : Int)
  | tlsHandshake (rc : Int)
  | sendConnect (rc : Int)
deriving DecidableEq, Repr

/-- TLS stage of `MQTTProtocol_connect` (lines 117-130), entered only
after an immediate TCP connect success: when `ssl` was requested,
configure the transport (`SSLSocket_setSocketForSSL`, success is return
value 1) and run the TLS handshake; an interrupted handshake sets
`connect_state` to 2 (TLS_PENDING), a configuration failure yields
`SOCKET_ERROR`.  Without TLS the state passes through unchanged. -/
def sslStage (env : ConnEnv) (ssl : Bool) (st : Int × Clients × List ConnStep) :
    Int × Clients × List ConnStep :=
  if ssl then
    if env.sslSetRc = 1 then
      if env.sslConnectRc = TCPSOCKET_INTERRUPTED then
        (env.sslConnectRc, { st.2.1 with ssl := env.sslCtx, connect_state := 2 },
         st.2.2 ++ [ConnStep.tlsSetup 1, ConnStep.tlsHandshake env.sslConnectRc])
      else
        (env.sslConnectRc, { st.2.1 with ssl := env.sslCtx },
         st.2.2 ++ [ConnStep.tlsSetup 1, ConnStep.tlsHandshake env.sslConnectRc])
    else (SOCKET_ERROR, st.2.1, st.2.2 ++ [ConnStep.tlsSetup env.sslSetRc])
  else st

/-- CONNECT-send stage of `MQTTProtocol_connect` (lines 132-139),
reached with the status of the previous stage: only when that status is
0 is the MQTT CONNECT packet sent; a successful send sets
`connect_state` to 3 (MQTT_PENDING), a failed send resets it to 0. -/
def sendStage (env : ConnEnv) (st : Int × Clients × List ConnStep) :
    Int × Clients × List ConnStep :=
  if st.1 = 0 then
    if env.sendConnectRc = 0 then
      (0, { st.2.1 with connect_state := 3 },
       st.2.2 ++ [ConnStep.sendConnect env.sendConnectRc])
    else
      (env.sendConnectRc, { st.2.1 with connect_state := 0 },
       st.2.2 ++ [ConnStep.sendConnect env.sendConnectRc])
  else st

/-- Embedding of `MQTTProtocol_connect` (lines 104-146): mark the
session healthy, create the socket (storing the handle), and either
record TCP_PENDING on an in-progress status, cascade into the TLS and
CONNECT-send stages on immediate success, or return any other status
with the state untouched.  The returned triple is the status, the
updated session, and the trace of external calls made. -/
def MQTTProtocol_connect (env : ConnEnv) (ssl : Bool) (aClient : Clients) :
    Int × Clients × List ConnStep :=
  if env.socketNewRc = EINPROGRESS ∨ env.socketNewRc = EWOULDBLOCK then
    (env.socketNewRc,
     { aClient with good := 1, socket := env.socketNewSock, connect_state := 1 },
     [ConnStep.tcpConnect env.socketNewRc])
  else if env.socketNewRc = 0 then
    sendStage env (sslStage env ssl
      (0, { aClient with good := 1, socket := env.socketNewSock },
       [ConnStep.tcpConnect env.socketNewRc]))
  else
    (env.socketNewRc, { aClient with good := 1, socket := env.socketNewSock },
     [ConnStep.tcpConnect env.socketNewRc])

/-- Embedding of `clientSocketCompare`: a registry entry matches when
its socket handle equals the one searched for. -/
def clientSocketCompare (c : Clients) (sock : Int) : Bool :=
  c.socket == sock

/-- Embedding of `ListFindItem(bstate->clients, &sock,
clientSocketCompare)`: first registry entry whose socket matches,
with `none` standing for a NULL result. -/
def ListFindItem (regs : List Clients) (sock : Int) : Option Clients :=
  regs.find? (fun c => clientSocketCompare c sock)

/-- In-place mutation of the found registry entry: replace the first
entry matching `sock` by `f` of it, as writing through the pointer
returned by `ListFindItem` does. -/
def updateFirstBySock (regs : List Clients) (sock : Int) (f : Clients → Clients) :
    List Clients :=
  match regs with
  | [] => []
  | c :: rest =>
    if clientSocketCompare c sock then f c :: rest
    else c :: updateFirstBySock rest sock f

/-- Embedding of `MQTTProtocol_handlePingresps` (lines 155-166): find
the session owning the socket and clear its `ping_outstanding` flag,
returning `TCPSOCKET_COMPLETE` and the updated registry.  The C code
dereferences the lookup result without a NULL check, so a missing
session is a crash, modelled as `none`. -/
def MQTTProtocol_handlePingresps (regs : List Clients) (sock : Int) :
    Option (Int × List Clients) :=
  match ListFindItem regs sock with
  | none => none
  | some _ =>
    some (TCPSOCKET_COMPLETE,
      updateFirstBySock regs sock (fun c => { c with ping_outstanding := 0 }))

/-- Ping-outstanding flag of the session owning `sock` after
`MQTTProtocol_handlePingresps` has run on `regs` (`none` when the call
crashed or the session is not registered afterwards). -/
def pingFlagAfter (regs : List Clients) (sock : Int) : Option Int :=
  (MQTTProtocol_handlePingresps regs sock).bind
    (fun r => (ListFindItem r.2 sock).map Clients.ping_outstanding)

/-- Status `MQTTProtocol_handlePingresps` returns on `regs` (`none`
when the call crashes on a missing session). -/
def pingRcAfter (regs : List Clients) (sock : Int) : Option Int :=
  (MQTTProtocol_handlePingresps regs sock).map Prod.fst

/-- Oracle return values of the packet-layer send routines used by
subscribe and unsubscribe. -/
structure SendEnv where
  sendSubscribeRc : Int
  sendUnsubscribeRc : Int
deriving DecidableEq, Repr

/-- Embedding of `MQTTProtocol_subscribe` (lines 178-188): delegate to
`MQTTPacket_send_subscribe` and return its status; the session record
is not modified (the code notes retry stacking as a TODO). -/
def MQTTProtocol_subscribe (env : SendEnv) (client : Clients)
    (topics : List (List Char)) (qoss : List Int) (msgID : Int)
    (opts : Int) (props : Int) : Int × Clients :=
  (env.sendSubscribeRc, client)

/-- Embedding of `MQTTProtocol_unsubscribe` (lines 218-227): delegate
to `MQTTPacket_send_unsubscribe` and return its status; the session
record is not modified. -/
def MQTTProtocol_unsubscribe (env : SendEnv) (client : Clients)
    (topics : List (List Char)) (msgID : Int) : Int × Clients :=
  (env.sendUnsubscribeRc, client)

/-- Embedding of `MQTTProtocol_handleSubacks` (lines 197-209): find the
session owning the socket (NULL dereference, modelled `none`, when
there is none), then unconditionally release the decoded Suback
(`MQTTPacket_freeSuback(suback)`).  `pack` is the identity of the
decoded packet instance; the returned list is the trace of release
events the call performs on it. -/
def MQTTProtocol_handleSubacks (regs : List Clients) (pack : Nat) (sock : Int) :
    Option (Int × List Nat) :=
  match ListFindItem regs sock with
  | none => none
  | some _ => some (TCPSOCKET_COMPLETE, [pack])

/-- Embedding of `MQTTProtocol_handleUnsubacks` (lines 236-248): find
the session owning the socket, then unconditionally release the decoded
Unsuback (`free(unsuback)`); the returned list is the trace of release
events. -/
def MQTTProtocol_handleUnsubacks (regs : List Clients) (pack : Nat) (sock : Int) :
    Option (Int × List Nat) :=
  match ListFindItem regs sock with
  | none => none
  | some _ => some (TCPSOCKET_COMPLETE, [pack])

/-- Release events one dispatch of a Suback to
`MQTTProtocol_handleSubacks` performs (empty when the call crashes on a
missing session). -/
def subackReleases (regs : List Clients) (pack : Nat) (sock : Int) : List Nat :=
  match MQTTProtocol_handleSubacks regs pack sock with
  | some (_, freed) => freed
  | none => []

/-- Release events one dispatch of an Unsuback to
`MQTTProtocol_handleUnsubacks` performs. -/
def unsubackReleases (regs : List Clients) (pack : Nat) (sock : Int) : List Nat :=
  match MQTTProtocol_handleUnsubacks regs pack sock with
  | some (_, freed) => freed
  | none => []

/-- A position reported by `strrchrIdx` holds the searched
character. -/
theorem strrchrIdx_get? (s : List Char) (c : Char) :
    ∀ i, strrchrIdx s c = some i → s.get? i = some c := by
  induction s with
  | nil => intro i h; simp [strrchrIdx] at h
  | cons a rest ih =>
    intro i h
    rw [strrchrIdx] at h
    cases hr : strrchrIdx rest c with
    | some k =>
      rw [hr] at h
      injection h with h2
      subst h2
      simpa using ih k hr
    | none =>
      rw [hr] at h
      by_cases hac : a = c
      · rw [if_pos hac] at h
        injection h with h2
        subst h2
        simp [hac]
      · rw [if_neg hac] at h
        simp at h

/-- A position reported by `strrchrIdx` lies inside the string. -/
theorem strrchrIdx_lt (s : List Char) (c : Char) (i : Nat)
    (h : strrchrIdx s c = some i) : i < s.length := by
  have hg := strrchrIdx_get? s c i h
  exact (List.get?_eq_some.mp hg).1

/-- Strings without the searched character make `strrchrIdx` report
NULL. -/
theorem strrchrIdx_eq_none (s : List Char) (c : Char) (h : ∀ a ∈ s, a ≠ c) :
    strrchrIdx s c = none := by
  induction s with
  | nil => rfl
  | cons a rest ih =>
    rw [strrchrIdx, ih (fun x hx => h x (List.mem_cons_of_mem a hx))]
    simp [h a (List.mem_cons_self a rest)]

/-- The separator position the parser settles on is the position of the
last colon. -/
theorem portSepIdx_colon (uri : List Char) (i : Nat)
    (h : portSepIdx uri = some i) : strrchrIdx uri ':' = some i := by
  unfold portSepIdx at h
  by_cases hb : uri.head? = some '['
  · rw [if_pos hb] at h
    cases hc : strrchrIdx uri ':' with
    | none =>
      rw [hc] at h
      have h2 : (none : Option Nat) = some i := h
      exact absurd h2 (by simp)
    | some k =>
      rw [hc] at h
      cases hrb : strrchrIdx uri ']' with
      | none =>
        rw [hrb] at h
        have h2 : (some k : Option Nat) = some i := h
        exact h2
      | some j =>
        rw [hrb] at h
        have h2 : (if k < j then (none : Option Nat) else some k) = some i := h
        by_cases hkj : k < j
        · rw [if_pos hkj] at h2
          exact absurd h2 (by simp)
        · rw [if_neg hkj] at h2
          exact h2
  · rw [if_neg hb] at h
    exact h

/-- In a bracketed input, a separator the parser accepts lies strictly
after the last closing bracket. -/
theorem portSepIdx_after_bracket (uri : List Char) (i j : Nat)
    (hb : uri.head? = some '[')
    (hi : portSepIdx uri = some i) (hj : strrchrIdx uri ']' = some j) :
    j < i := by
  have hc : strrchrIdx uri ':' = some i := portSepIdx_colon uri i hi
  unfold portSepIdx at hi
  rw [if_pos hb, hc, hj] at hi
  have h2 : (if i < j then (none : Option Nat) else some i) = some i := hi
  by_cases hij : i < j
  · rw [if_pos hij] at h2
    exact absurd h2 (by simp)
  · have hle : j ≤ i := Nat.not_lt.mp hij
    rcases Nat.lt_or_ge j i with h1 | h2i
    · exact h1
    · exfalso
      have hji : j = i := le_antisymm hle h2i
      subst hji
      have g1 := strrchrIdx_get? uri ':' j hc
      have g2 := strrchrIdx_get? uri ']' j hj
      rw [g1] at g2
      injection g2 with g3
      exact absurd g3 (by decide)

/-- Characters surviving the whitespace skip come from the input. -/
theorem atoiSkip_mem (s : List Char) (a : Char) : a ∈ atoiSkip s → a ∈ s := by
  induction s with
  | nil => intro h; simp [atoiSkip] at h
  | cons c rest ih =>
    intro h
    rw [atoiSkip] at h
    by_cases hc : isSpaceC c
    · rw [if_pos hc] at h
      exact List.mem_cons_of_mem c (ih h)
    · rw [if_neg hc] at h
      exact h

/-- The digit accumulator leaves a zero accumulator untouched when the
input starts with a non-digit. -/
theorem atoiDigits_zero (l : List Char) (h : ∀ c ∈ l, c.isDigit = false) :
    atoiDigits l 0 = 0 := by
  cases l with
  | nil => rfl
  | cons c rest => simp [atoiDigits, h c (List.mem_cons_self c rest)]

/-- The embedding of `atoi` yields 0 on a string containing no
digits. -/
theorem atoi_no_digits (s : List Char) (h : ∀ c ∈ s, c.isDigit = false) :
    atoi s = 0 := by
  have ht : ∀ c ∈ atoiSkip s, c.isDigit = false :=
    fun c hc => h c (atoiSkip_mem s c hc)
  have htl : ∀ c ∈ (atoiSkip s).tail, c.isDigit = false :=
    fun c hc => ht c (List.mem_of_mem_tail hc)
  unfold atoi
  by_cases h1 : (atoiSkip s).head? = some '-'
  · rw [if_pos h1, atoiDigits_zero _ htl]
    simp
  · rw [if_neg h1]
    by_cases h2 : (atoiSkip s).head? = some '+'
    · rw [if_pos h2]
      exact atoiDigits_zero _ htl
    · rw [if_neg h2]
      exact atoiDigits_zero _ ht

/-- Clearing the found session's ping flag in place: the registry
lookup afterwards yields that session with the flag cleared. -/
theorem findItem_update_clear (regs : List Clients) (sock : Int) (c : Clients)
    (hf : ListFindItem regs sock = some c) :
    ListFindItem
        (updateFirstBySock regs sock (fun x => { x with ping_outstanding := 0 })) sock
      = some { c with ping_outstanding := 0 } := by
  induction regs with
  | nil => simp [ListFindItem] at hf
  | cons a rest ih =>
    by_cases ha : clientSocketCompare a sock = true
    · have hfc : a = c := by
        simp [ListFindItem, List.find?_cons, ha] at hf
        exact hf
      subst hfc
      have hcmp : clientSocketCompare { a with ping_outstanding := 0 } sock = true := by
        simpa [clientSocketCompare] using ha
      rw [updateFirstBySock, if_pos ha]
      simp [ListFindItem, List.find?_cons, hcmp]
    · have ha2 : clientSocketCompare a sock = false := by
        simpa using ha
      have hf2 : ListFindItem rest sock = some c := by
        simpa [ListFindItem, List.find?_cons, ha2] using hf
      rw [updateFirstBySock, if_neg (by simp [ha2])]
      have hgoal := ih hf2
      simpa [ListFindItem, List.find?_cons, ha2] using hgoal

/-- The in-place ping-flag update leaves every session's health flag
unchanged. -/
theorem updateFirst_map_good (regs : List Clients) (sock : Int) :
    (updateFirstBySock regs sock (fun x => { x with ping_outstanding := 0 })).map
        Clients.good
      = regs.map Clients.good := by
  induction regs with
  | nil => rfl
  | cons a rest ih =>
    rw [updateFirstBySock]
    by_cases ha : clientSocketCompare a sock = true
    · rw [if_pos ha]
      simp
    · rw [if_neg ha]
      simp [ih]

/-- The TLS stage modifies at most the TLS context and the handshake
phase of the session it is given. -/
theorem sslStage_frame (env : ConnEnv) (ssl : Bool) (st : Int × Clients × List ConnStep) :
    (sslStage env ssl st).2.1.good = st.2.1.good ∧
    (sslStage env ssl st).2.1.clientID = st.2.1.clientID ∧
    (sslStage env ssl st).2.1.ping_outstanding = st.2.1.ping_outstanding ∧
    (sslStage env ssl st).2.1.sslopts = st.2.1.sslopts ∧
    (sslStage env ssl st).2.1.socket = st.2.1.socket := by
  unfold sslStage
  split_ifs <;> exact ⟨rfl, rfl, rfl, rfl, rfl⟩

/-- The CONNECT-send stage modifies at most the handshake phase of the
session it is given. -/
theorem sendStage_frame (env : ConnEnv) (st : Int × Clients × List ConnStep) :
    (sendStage env st).2.1.good = st.2.1.good ∧
    (sendStage env st).2.1.clientID = st.2.1.clientID ∧
    (sendStage env st).2.1.ping_outstanding = st.2.1.ping_outstanding ∧
    (sendStage env st).2.1.sslopts = st.2.1.sslopts ∧
    (sendStage env st).2.1.socket = st.2.1.socket := by
  unfold sendStage
  split_ifs <;> exact ⟨rfl, rfl, rfl, rfl, rfl⟩

/-- Inputs whose only colons sit inside the brackets, or that have no
colon at all, make the parser settle on no separator. -/
theorem portSepIdx_none_left (uri : List Char) (h : ∀ a ∈ uri, a ≠ ':') :
    portSepIdx uri = none := by
  have hc := strrchrIdx_eq_none uri ':' h
  unfold portSepIdx
  by_cases hb : uri.head? = some '['
  · rw [if_pos hb, hc]
  · rw [if_neg hb]
    exact hc

/-- C1, counterexample: the code never splits on a bracket-internal
colon, but the host it returns for a bracketed IPv6 literal keeps the
leading bracket — `"[::1]:1883"` parses to host `"[::1"`, not `"::1"`
(only the trailing `']'` is stripped; the socket layer is expected to
skip the leading `'['`). -/
theorem claim_C1_counterexample :
    (MQTTProtocol_addressPort "[::1]:1883".data).host ≠ "::1".data ∧
    (MQTTProtocol_addressPort "[::1]".data).host ≠ "::1".data := by decide

/-- C1 (amended): for every input beginning with `'['`, any colon
position accepted as the port separator lies strictly after the last
closing bracket, so a colon inside the IPv6 literal is never used to
split host from port; concretely `"[::1]:1883"` parses to host `"[::1"`
and port 1883, and `"[::1]"` to host `"[::1"` with the default port
(the trailing bracket is stripped even though no port was parsed). -/
theorem claim_C1_ipv6_no_missplit (uri : List Char) (i j : Nat)
    (hbr : uri.head? = some '[')
    (hi : portSepIdx uri = some i) (hj : strrchrIdx uri ']' = some j) :
    j < i ∧
    MQTTProtocol_addressPort "[::1]:1883".data = ⟨"[::1".data, 1883, true⟩ ∧
    MQTTProtocol_addressPort "[::1]".data = ⟨"[::1".data, DEFAULT_PORT, true⟩ :=
  ⟨portSepIdx_after_bracket uri i j hbr hi hj, by decide, by decide⟩

/-- C1, witness: the amended theorem applied to `"[::1]:1883"`, whose
last colon sits at position 5, after the closing bracket at 4. -/
theorem claim_C1_witness :
    (4 : Nat) < 5 ∧
    MQTTProtocol_addressPort "[::1]:1883".data = ⟨"[::1".data, 1883, true⟩ ∧
    MQTTProtocol_addressPort "[::1]".data = ⟨"[::1".data, DEFAULT_PORT, true⟩ :=
  claim_C1_ipv6_no_missplit "[::1]:1883".data 5 4 (by decide) (by decide) (by decide)

/-- C6: whenever no valid port separator exists — the input has no
colon at all, or it is bracketed and its last colon lies before the
last closing bracket — the returned port is the fixed protocol
default. -/
theorem claim_C6_default_port (uri : List Char)
    (h : (∀ a ∈ uri, a ≠ ':') ∨
      (uri.head? = some '[' ∧ ∃ i j, strrchrIdx uri ':' = some i ∧
        strrchrIdx uri ']' = some j ∧ i < j)) :
    (MQTTProtocol_addressPort uri).port = DEFAULT_PORT := by
  have hsep : portSepIdx uri = none := by
    rcases h with h | ⟨hb, i, j, hi, hj, hij⟩
    · exact portSepIdx_none_left uri h
    · unfold portSepIdx
      rw [if_pos hb, hi, hj]
      show (if i < j then (none : Option Nat) else some i) = none
      rw [if_pos hij]
  by_cases hl : uri.getLast? = some ']' <;>
    simp [MQTTProtocol_addressPort, hsep, hl]

/-- C6, witness: the theorem applied to `"example.com"`, which contains
no colon. -/
theorem claim_C6_witness :
    (MQTTProtocol_addressPort "example.com".data).port = DEFAULT_PORT :=
  claim_C6_default_port "example.com".data (Or.inl (by decide))

/-- C7: when a port separator is identified but the suffix after it
contains no digit, the returned port is 0; the function still returns a
host/port result rather than signalling an error. -/
theorem claim_C7_malformed_port_zero (uri : List Char) (i : Nat)
    (hsep : portSepIdx uri = some i)
    (hnd : ∀ c ∈ uri.drop (i + 1), c.isDigit = false) :
    (MQTTProtocol_addressPort uri).port = 0 := by
  have hz := atoi_no_digits _ hnd
  by_cases hb : (uri.take i).getLast? = some ']' <;>
    simp [MQTTProtocol_addressPort, hsep, hb, hz]

/-- C7, witness: the theorem applied to `"host:abc"`, whose suffix
after the separator at position 4 is non-numeric. -/
theorem claim_C7_witness :
    (MQTTProtocol_addressPort "host:abc".data).port = 0 :=
  claim_C7_malformed_port_zero "host:abc".data 4 (by decide) (by decide)

/-- C8: the returned host buffer aliases the input exactly when neither
a port split nor a bracket strip occurred (equivalently, exactly when
the returned host is the unchanged input string), so the caller's
identity comparison against the input correctly classifies
ownership. -/
theorem claim_C8_ownership (uri : List Char) :
    ((MQTTProtocol_addressPort uri).host = uri ↔
      portSepIdx uri = none ∧ uri.getLast? ≠ some ']') ∧
    ((MQTTProtocol_addressPort uri).fresh = false ↔
      (MQTTProtocol_addressPort uri).host = uri) := by
  unfold MQTTProtocol_addressPort
  split
  next i heq =>
    have hi : i < uri.length := strrchrIdx_lt uri ':' i (portSepIdx_colon uri i heq)
    have hmin : min i uri.length = i := Nat.min_eq_left (le_of_lt hi)
    split
    next hb =>
      have hne : (uri.take i).dropLast ≠ uri := by
        intro he
        have hl := congrArg List.length he
        rw [List.length_dropLast, List.length_take, hmin] at hl
        omega
      refine ⟨⟨fun he => absurd he hne,
        fun hc => absurd (heq.symm.trans hc.1) (by simp)⟩,
        ⟨fun hfa => absurd (show true = false from hfa) (by decide),
         fun he => absurd he hne⟩⟩
    next hb =>
      have hne : uri.take i ≠ uri := by
        intro he
        have hl := congrArg List.length he
        rw [List.length_take, hmin] at hl
        omega
      refine ⟨⟨fun he => absurd he hne,
        fun hc => absurd (heq.symm.trans hc.1) (by simp)⟩,
        ⟨fun hfa => absurd (show true = false from hfa) (by decide),
         fun he => absurd he hne⟩⟩
  next heq =>
    split
    next hl =>
      have hnil : uri ≠ [] := by
        intro he
        rw [he] at hl
        exact absurd hl (by simp)
      have hlen : 0 < uri.length := List.length_pos.mpr hnil
      have hne : uri.dropLast ≠ uri := by
        intro he
        have hl2 := congrArg List.length he
        rw [List.length_dropLast] at hl2
        omega
      refine ⟨⟨fun he => absurd he hne, fun hc => absurd hl hc.2⟩,
        ⟨fun hfa => absurd (show true = false from hfa) (by decide),
         fun he => absurd he hne⟩⟩
    next hl =>
      exact ⟨⟨fun _ => ⟨heq, hl⟩, fun _ => rfl⟩, ⟨fun _ => rfl, fun _ => rfl⟩⟩

/-- C2: starting from the initial phase with TLS requested, an
invocation that ends with `connect_state = 3` (MQTT_PENDING) went
through every handshake stage in order — a successful TCP connect, a
successful TLS configuration and handshake, and the CONNECT send — so
no intermediate phase was skipped on the way to MQTT_PENDING. -/
theorem claim_C2_no_phase_skip (env : ConnEnv) (c : Clients)
    (h0 : c.connect_state = 0)
    (h3 : (MQTTProtocol_connect env true c).2.1.connect_state = 3) :
    (MQTTProtocol_connect env true c).2.2 =
      [ConnStep.tcpConnect 0, ConnStep.tlsSetup 1,
       ConnStep.tlsHandshake 0, ConnStep.sendConnect 0] := by
  have hSE : ¬ (SOCKET_ERROR = (0 : Int)) := by decide
  have hTI : ¬ (TCPSOCKET_INTERRUPTED = (0 : Int)) := by decide
  have hE0 : ¬ ((0 : Int) = EINPROGRESS) := by decide
  have hW0 : ¬ ((0 : Int) = EWOULDBLOCK) := by decide
  have hTI0 : ¬ ((0 : Int) = TCPSOCKET_INTERRUPTED) := by decide
  by_cases hp : env.socketNewRc = EINPROGRESS ∨ env.socketNewRc = EWOULDBLOCK
  · exfalso
    rcases hp with hpa | hpb
    · simp [MQTTProtocol_connect, hpa] at h3
    · simp [MQTTProtocol_connect, hpb] at h3
  · by_cases h0rc : env.socketNewRc = 0
    · by_cases hset : env.sslSetRc = 1
      · by_cases hint : env.sslConnectRc = TCPSOCKET_INTERRUPTED
        · exfalso
          simp [MQTTProtocol_connect, sslStage, sendStage, hp, h0rc, hset, hint,
            hTI, hE0, hW0, hTI0] at h3
        · by_cases hc0 : env.sslConnectRc = 0
          · by_cases hsend : env.sendConnectRc = 0
            · simp [MQTTProtocol_connect, sslStage, sendStage, hp, h0rc, hset, hint,
                hc0, hsend, hE0, hW0, hTI0]
            · exfalso
              simp [MQTTProtocol_connect, sslStage, sendStage, hp, h0rc, hset, hint,
                hc0, hsend, hE0, hW0, hTI0] at h3
          · exfalso
            simp [MQTTProtocol_connect, sslStage, sendStage, hp, h0rc, hset, hint,
              hc0, h0, hE0, hW0, hTI0] at h3
      · exfalso
        simp [MQTTProtocol_connect, sslStage, sendStage, hp, h0rc, hset, h0,
          hSE, hE0, hW0, hTI0] at h3
    · exfalso
      simp [MQTTProtocol_connect, hp, h0rc, h0, hE0, hW0, hTI0] at h3

/-- C2, witness: the theorem applied to an environment in which every
stage succeeds immediately. -/
theorem claim_C2_witness :
    (MQTTProtocol_connect ⟨0, 7, 1, 9, 0, 0⟩ true ⟨[], 0, 0, 0, 5, 0, 0⟩).2.2 =
      [ConnStep.tcpConnect 0, ConnStep.tlsSetup 1,
       ConnStep.tlsHandshake 0, ConnStep.sendConnect 0] :=
  claim_C2_no_phase_skip ⟨0, 7, 1, 9, 0, 0⟩ ⟨[], 0, 0, 0, 5, 0, 0⟩ rfl (by decide)

/-- C3: when the TCP connect reports in progress (`EINPROGRESS` or
`EWOULDBLOCK`), the session's `connect_state` becomes 1 (TCP_PENDING),
that status is returned, and the trace shows the TCP connect as the
only external call — no TLS configuration, TLS handshake, or CONNECT
send was attempted. -/
theorem claim_C3_tcp_pending (env : ConnEnv) (ssl : Bool) (c : Clients)
    (h : env.socketNewRc = EINPROGRESS ∨ env.socketNewRc = EWOULDBLOCK) :
    MQTTProtocol_connect env ssl c =
      (env.socketNewRc,
       { c with good := 1, socket := env.socketNewSock, connect_state := 1 },
       [ConnStep.tcpConnect env.socketNewRc]) := by
  unfold MQTTProtocol_connect
  rw [if_pos h]

/-- C3, witness: the theorem applied to an environment whose TCP
connect returns `EINPROGRESS`, with TLS requested. -/
theorem claim_C3_witness :
    MQTTProtocol_connect ⟨EINPROGRESS, 7, 0, 0, 0, 0⟩ true ⟨[], 0, 0, 0, 5, 0, 0⟩ =
      (EINPROGRESS,
       { (⟨[], 0, 0, 0, 5, 0, 0⟩ : Clients) with
          good := 1, socket := 7, connect_state := 1 },
       [ConnStep.tcpConnect EINPROGRESS]) :=
  claim_C3_tcp_pending ⟨EINPROGRESS, 7, 0, 0, 0, 0⟩ true ⟨[], 0, 0, 0, 5, 0, 0⟩
    (Or.inl rfl)

/-- C4: from the initial phase, a connect invocation that ends in a
failure status — not success (0) and not one of the pending statuses
(`EINPROGRESS`, `EWOULDBLOCK`, `TCPSOCKET_INTERRUPTED`) — leaves
`connect_state` at 0 (INIT), whether the failure was a TCP error, a TLS
configuration or handshake failure, or a CONNECT send failure (where
the code resets the state explicitly). -/
theorem claim_C4_failure_leaves_init (env : ConnEnv) (ssl : Bool) (c : Clients)
    (h0 : c.connect_state = 0)
    (hrc : (MQTTProtocol_connect env ssl c).1 ≠ 0)
    (hp1 : (MQTTProtocol_connect env ssl c).1 ≠ EINPROGRESS)
    (hp2 : (MQTTProtocol_connect env ssl c).1 ≠ EWOULDBLOCK)
    (hp3 : (MQTTProtocol_connect env ssl c).1 ≠ TCPSOCKET_INTERRUPTED) :
    (MQTTProtocol_connect env ssl c).2.1.connect_state = 0 := by
  have hSE : ¬ (SOCKET_ERROR = (0 : Int)) := by decide
  have hTI : ¬ (TCPSOCKET_INTERRUPTED = (0 : Int)) := by decide
  have hE0 : ¬ ((0 : Int) = EINPROGRESS) := by decide
  have hW0 : ¬ ((0 : Int) = EWOULDBLOCK) := by decide
  have hTI0 : ¬ ((0 : Int) = TCPSOCKET_INTERRUPTED) := by decide
  by_cases hp : env.socketNewRc = EINPROGRESS ∨ env.socketNewRc = EWOULDBLOCK
  · exfalso
    rcases hp with hpa | hpb
    · simp [MQTTProtocol_connect, hpa] at hp1
    · simp [MQTTProtocol_connect, hpb] at hp2
  · by_cases h0rc : env.socketNewRc = 0
    · cases ssl with
      | false =>
        by_cases hsend : env.sendConnectRc = 0
        · exfalso
          simp [MQTTProtocol_connect, sslStage, sendStage, hp, h0rc, hsend, hE0, hW0, hTI0] at hrc
        · simp [MQTTProtocol_connect, sslStage, sendStage, hp, h0rc, hsend, hE0, hW0, hTI0]
      | true =>
        by_cases hset : env.sslSetRc = 1
        · by_cases hint : env.sslConnectRc = TCPSOCKET_INTERRUPTED
          · exfalso
            simp [MQTTProtocol_connect, sslStage, sendStage, hp, h0rc, hset, hint,
              hTI, hE0, hW0, hTI0] at hp3
          · by_cases hc0 : env.sslConnectRc = 0
            · by_cases hsend : env.sendConnectRc = 0
              · exfalso
                simp [MQTTProtocol_connect, sslStage, sendStage, hp, h0rc, hset,
                  hint, hc0, hsend, hE0, hW0, hTI0] at hrc
              · simp [MQTTProtocol_connect, sslStage, sendStage, hp, h0rc, hset,
                  hint, hc0, hsend, hE0, hW0, hTI0]
            · simp [MQTTProtocol_connect, sslStage, sendStage, hp, h0rc, hset,
                hint, hc0, h0, hE0, hW0, hTI0]
        · simp [MQTTProtocol_connect, sslStage, sendStage, hp, h0rc, hset, h0,
            hSE, hE0, hW0, hTI0]
    · simp [MQTTProtocol_connect, hp, h0rc, h0, hE0, hW0, hTI0]

/-- C4, witness: the theorem applied to an environment whose TCP
connect fails with a generic socket error. -/
theorem claim_C4_witness :
    (MQTTProtocol_connect ⟨-1, 7, 0, 0, 0, 0⟩ false ⟨[], 0, 0, 0, 5, 0, 0⟩).2.1.connect_state
      = 0 :=
  claim_C4_failure_leaves_init ⟨-1, 7, 0, 0, 0, 0⟩ false ⟨[], 0, 0, 0, 5, 0, 0⟩
    rfl (by decide) (by decide) (by decide) (by decide)

/-- C5: for every socket with a registered session, the pingresp
handler returns the uniform completion status `TCPSOCKET_COMPLETE` and
afterwards the session registered for that socket has
`ping_outstanding = 0`, regardless of the flag's prior value. -/
theorem claim_C5_pingresp_clears (regs : List Clients) (sock : Int)
    (h : (ListFindItem regs sock).isSome = true) :
    pingFlagAfter regs sock = some 0 ∧
    pingRcAfter regs sock = some TCPSOCKET_COMPLETE := by
  cases hf : ListFindItem regs sock with
  | none => rw [hf] at h; exact absurd h (by decide)
  | some c =>
    have hu := findItem_update_clear regs sock c hf
    constructor
    · unfold pingFlagAfter MQTTProtocol_handlePingresps
      rw [hf]
      simp [hu]
    · unfold pingRcAfter MQTTProtocol_handlePingresps
      rw [hf]
      simp

/-- C5, witness: the theorem applied to a one-session registry whose
session has the flag set. -/
theorem claim_C5_witness :
    pingFlagAfter [⟨[], 0, 1, 1, 3, 0, 0⟩] 3 = some 0 ∧
    pingRcAfter [⟨[], 0, 1, 1, 3, 0, 0⟩] 3 = some TCPSOCKET_COMPLETE :=
  claim_C5_pingresp_clears [⟨[], 0, 1, 1, 3, 0, 0⟩] 3 (by decide)

/-- C9, counterexample: dispatching the same decoded packet instance
twice releases it twice — the combined release trace of two dispatches
of Suback (and Unsuback) instance 7 counts two releases, so repeated
dispatch does cause a double release. -/
theorem claim_C9_counterexample :
    ¬ ((subackReleases [⟨[], 0, 1, 0, 5, 0, 0⟩] 7 5 ++
        subackReleases [⟨[], 0, 1, 0, 5, 0, 0⟩] 7 5).count 7 ≤ 1) ∧
    ¬ ((unsubackReleases [⟨[], 0, 1, 0, 5, 0, 0⟩] 7 5 ++
        unsubackReleases [⟨[], 0, 1, 0, 5, 0, 0⟩] 7 5).count 7 ≤ 1) := by decide

/-- C9 (amended): one dispatch of a decoded Suback or Unsuback to its
handler releases the ack structure exactly once and returns
`TCPSOCKET_COMPLETE`; the handlers release unconditionally, so freedom
from double release requires the decoding layer to dispatch each
instance at most once. -/
theorem claim_C9_single_release (regs : List Clients) (pack : Nat) (sock : Int)
    (h : (ListFindItem regs sock).isSome = true) :
    (subackReleases regs pack sock).count pack = 1 ∧
    (unsubackReleases regs pack sock).count pack = 1 ∧
    (MQTTProtocol_handleSubacks regs pack sock).map Prod.fst =
      some TCPSOCKET_COMPLETE ∧
    (MQTTProtocol_handleUnsubacks regs pack sock).map Prod.fst =
      some TCPSOCKET_COMPLETE := by
  cases hf : ListFindItem regs sock with
  | none => rw [hf] at h; exact absurd h (by decide)
  | some c =>
    refine ⟨?_, ?_, ?_, ?_⟩ <;>
      simp [subackReleases, unsubackReleases, MQTTProtocol_handleSubacks,
        MQTTProtocol_handleUnsubacks, hf]

/-- C9, witness: the amended theorem applied to a one-session registry
and packet instance 9. -/
theorem claim_C9_witness :
    (subackReleases [⟨[], 0, 1, 0, 5, 0, 0⟩] 9 5).count 9 = 1 ∧
    (unsubackReleases [⟨[], 0, 1, 0, 5, 0, 0⟩] 9 5).count 9 = 1 ∧
    (MQTTProtocol_handleSubacks [⟨[], 0, 1, 0, 5, 0, 0⟩] 9 5).map Prod.fst =
      some TCPSOCKET_COMPLETE ∧
    (MQTTProtocol_handleUnsubacks [⟨[], 0, 1, 0, 5, 0, 0⟩] 9 5).map Prod.fst =
      some TCPSOCKET_COMPLETE :=
  claim_C9_single_release [⟨[], 0, 1, 0, 5, 0, 0⟩] 9 5 (by decide)

/-- C10, counterexample: the pingresp handler — an operation of this
core — modifies a session field outside {good, net.socket, net.ssl,
connect_state}: it clears `ping_outstanding`, so the claim's frame
clause fails when taken over all of this core's operations. -/
theorem claim_C10_counterexample :
    MQTTProtocol_handlePingresps [⟨[], 0, 1, 1, 5, 0, 0⟩] 5 =
      some (TCPSOCKET_COMPLETE, [⟨[], 0, 1, 0, 5, 0, 0⟩]) ∧
    (⟨[], 0, 1, 1, 5, 0, 0⟩ : Clients).ping_outstanding ≠
      (⟨[], 0, 1, 0, 5, 0, 0⟩ : Clients).ping_outstanding := by decide

/-- C10 (amended): `MQTTProtocol_connect` sets `good` to 1
unconditionally at entry — it is 1 in the result whatever the outcome —
and modifies only the fields good, net.socket, net.ssl and
connect_state (clientID, ping_outstanding and sslopts are preserved);
subscribe and unsubscribe modify no session field; the pingresp handler
additionally clears `ping_outstanding` but preserves every session's
`good`. -/
theorem claim_C10_frame (env : ConnEnv) (senv : SendEnv) (ssl : Bool) (c : Clients)
    (topics : List (List Char)) (qoss : List Int) (msgID opts props : Int)
    (regs : List Clients) (sock : Int) :
    (MQTTProtocol_connect env ssl c).2.1.good = 1 ∧
    (MQTTProtocol_connect env ssl c).2.1.clientID = c.clientID ∧
    (MQTTProtocol_connect env ssl c).2.1.ping_outstanding = c.ping_outstanding ∧
    (MQTTProtocol_connect env ssl c).2.1.sslopts = c.sslopts ∧
    (MQTTProtocol_subscribe senv c topics qoss msgID opts props).2 = c ∧
    (MQTTProtocol_unsubscribe senv c topics msgID).2 = c ∧
    (updateFirstBySock regs sock (fun x => { x with ping_outstanding := 0 })).map
        Clients.good = regs.map Clients.good := by
  refine ⟨?_, ?_, ?_, ?_, rfl, rfl, updateFirst_map_good regs sock⟩
  · unfold MQTTProtocol_connect
    split_ifs with h1 h2
    · rfl
    · rw [(sendStage_frame env _).1, (sslStage_frame env ssl _).1]
    · rfl
  · unfold MQTTProtocol_connect
    split_ifs with h1 h2
    · rfl
    · rw [(sendStage_frame env _).2.1, (sslStage_frame env ssl _).2.1]
    · rfl
  · unfold MQTTProtocol_connect
    split_ifs with h1 h2
    · rfl
    · rw [(sendStage_frame env _).2.2.1, (sslStage_frame env ssl _).2.2.1]
    · rfl
  · unfold MQTTProtocol_connect
    split_ifs with h1 h2
    · rfl
    · rw [(sendStage_frame env _).2.2.2.1, (sslStage_frame env ssl _).2.2.2.1]
    · rfl
